import Mathlib

/-!
# Verification of the CSV-driven UI input CLI (`main.py`)

A shallow embedding of the pure core of `src/main.py`: the header grammar
(`HEADER_RE`), coordinate grammar (`COORDS_RE`), Python `int()` on stripped
cell strings, the action interpreter `run_action`, and the row scheduler
`process_csv`.

Modelling conventions:
* Python exceptions (`ValueError`, the spec's `FormatError`) become
  `Except String`.
* Side effects performed through `pyautogui` / `pyperclip` / `time.sleep`
  become an explicit `Effect` list returned by the interpreter; `print`
  output of `run_action`'s local `info` becomes a returned message list.
* Python regular expressions are modelled by deterministic functions that
  reproduce the leftmost, greedy, backtracking match semantics of `re` for
  the two concrete patterns used by the program.  Character classes
  (`[a-z0-9+\-]` with `re.IGNORECASE`, `\d`, `\s`) are modelled over ASCII.
* Python floats used only for delays are modelled as rationals (`ℚ`); the
  program compares them with `> 0` and passes them to `time.sleep` only.
* The global pause/stop flags are asynchronous hotkey state; the embedding
  models a run during which neither flag is ever set (their concurrency is
  outside the shallow embedding).
-/

namespace CopyPasteMove

/-! ## Character classes (ASCII model of the `re` classes used) -/

/-- The action character class of `HEADER_RE`: `[a-z0-9+\-]` under
`re.IGNORECASE`, i.e. ASCII letters, digits, `+`, `-`. -/
def isActionChar (c : Char) : Bool :=
  c.isAlpha || c.isDigit || c = '+' || c = '-'

/-- Class `\d` (ASCII model). -/
def isDigitChar (c : Char) : Bool := c.isDigit

/-! ## `HEADER_RE` — `^(?P<action>[a-z0-9+\-]+)(?:-(?P<fixparam>[^_]+))?_(?P<seq>\d+)$`

The Python engine matches the greedy `action` group first, then tries the
optional fixparam group (present before absent), then requires `_` and a
nonempty digit run to the end; on failure it backtracks `action` one
character at a time.  Because `fixparam` is `[^_]+` and is followed by a
mandatory `_`, a present fixparam always extends exactly to the first `_`
after it starts. -/

/-- Split a character list at the first `'_'`: returns the (underscore-free)
prefix and the remainder after the underscore. -/
def splitAtUnderscore : List Char → Option (List Char × List Char)
  | [] => none
  | c :: cs =>
    if c = '_' then some ([], cs)
    else
      match splitAtUnderscore cs with
      | some (a, b) => some (c :: a, b)
      | none => none

/-- Try to match `(?:-(?P<fixparam>[^_]+))?_(?P<seq>\d+)$` against the text
remaining after the action group.  Returns `(fixparam?, seq digits)`.
Mirrors the regex's preference: fixparam present before absent. -/
def tryRest (rest : List Char) : Option (Option (List Char) × List Char) :=
  let present : Option (Option (List Char) × List Char) :=
    match rest with
    | '-' :: rest' =>
      match splitAtUnderscore rest' with
      | some (fix, digits) =>
        if fix ≠ [] ∧ digits ≠ [] ∧ digits.all isDigitChar then
          some (some fix, digits)
        else none
      | none => none
    | _ => none
  let absent : Option (Option (List Char) × List Char) :=
    match rest with
    | '_' :: digits =>
      if digits ≠ [] ∧ digits.all isDigitChar then some (none, digits) else none
    | _ => none
  present <|> absent

/-- Backtracking over the greedy `action` group: `revAct` is the candidate
action (reversed), longest first; each failure moves one character back to
`rest`. -/
def tryActions : List Char → List Char → Option (List Char × Option (List Char) × List Char)
  | [], _ => none
  | c :: revAct', rest =>
    match tryRest rest with
    | some (fix, digits) => some ((c :: revAct').reverse, fix, digits)
    | none => tryActions revAct' (c :: rest)

/-- Maximal prefix of action characters and the remainder. -/
def actionSpan : List Char → List Char × List Char
  | [] => ([], [])
  | c :: cs =>
    if isActionChar c then
      let (p, r) := actionSpan cs
      (c :: p, r)
    else ([], c :: cs)

/-- Model of `HEADER_RE.match` on an (already stripped) string: returns the matched
groups `(action, fixparam?, seq digits)` or `none`. -/
def headerMatch (s : String) : Option (List Char × Option (List Char) × List Char) :=
  let (pre, rest) := actionSpan s.toList
  tryActions pre.reverse rest

/-! ## Numbers -/

/-- Value of a digit list (most significant first), underscores skipped —
used both for regex `\d+` groups and for Python `int()` digit runs. -/
def digitsVal (cs : List Char) : Nat :=
  cs.foldl (fun acc c => if c = '_' then acc else acc * 10 + (c.toNat - '0'.toNat)) 0

/-- Python `int()` digit-run tail: digits with single underscores allowed
between digits. -/
def digitsURest : List Char → Bool
  | [] => true
  | '_' :: [] => false
  | '_' :: c :: cs => c.isDigit && digitsURest cs
  | c :: cs => c.isDigit && digitsURest cs

/-- Python `int()` digit run: nonempty, starts with a digit. -/
def digitsU : List Char → Bool
  | [] => false
  | c :: cs => c.isDigit && digitsURest cs

/-- Python `int(s)` on an already-stripped string (as produced by
`val = (cell_value or "").strip()`): optional `+`/`-` sign, then an ASCII
digit run with optional grouping underscores; `none` models `ValueError`. -/
def pyInt? (s : String) : Option Int :=
  match s.toList with
  | '+' :: rest => if digitsU rest then some (digitsVal rest : Nat) else none
  | '-' :: rest => if digitsU rest then some (-(digitsVal rest : Nat) : Int) else none
  | cs => if digitsU cs then some (digitsVal cs : Nat) else none

/-! ## Python `.strip()` and `.split("+")` (ASCII model, fully reducible) -/

/-- Drop leading and trailing whitespace from a char list. -/
def stripChars (cs : List Char) : List Char :=
  (((cs.dropWhile Char.isWhitespace).reverse).dropWhile Char.isWhitespace).reverse

/-- Python `s.strip()`. -/
def pyStrip (s : String) : String := String.mk (stripChars s.toList)

/-- Python `s.split("+")` on a char list: split at every `'+'`, keeping
empty parts. -/
def splitPlus : List Char → List (List Char)
  | [] => [[]]
  | c :: cs =>
    let r := splitPlus cs
    if c = '+' then [] :: r
    else
      match r with
      | h :: t => (c :: h) :: t
      | [] => [[c]]

/-! ## Tokens and `parse_header` -/

/-- One parsed header token, the dict
`{"raw": h, "action": ..., "seq": ..., "fixparam": ...}` built by
`parse_header`. -/
structure Token where
  raw : String
  action : String
  seq : Nat
  fixparam : Option String
  deriving Repr, DecidableEq

/-- ASCII lowercase of a string (`.lower()` on the action group). -/
def strLower (s : String) : String := String.mk (s.toList.map Char.toLower)

/-- Model of `parse_header`: match every header cell against `HEADER_RE` (after
`.strip()`), lowercase the action, convert the sequence digits; the first
failure raises (`ValueError`, the spec's `FormatError`). -/
def parse_header (headers : List String) : Except String (List Token) :=
  match headers with
  | [] => .ok []
  | h :: rest =>
    match headerMatch (pyStrip h) with
    | none =>
      .error ("Bad header token: '" ++ h ++ "'. Expected like 'ctrl+v_1' or 'click-100x1200_2'")
    | some (act, fix, seqDigits) =>
      match parse_header rest with
      | .error e => .error e
      | .ok toks =>
        .ok ({ raw := h,
               action := strLower (String.mk act),
               seq := digitsVal seqDigits,
               fixparam := fix.map String.mk } :: toks)

/-! ## `COORDS_RE` and `parse_coords` -/

/-- Drop leading `\s*` (ASCII model of whitespace). -/
def skipWs : List Char → List Char
  | [] => []
  | c :: cs => if c.isWhitespace then skipWs cs else c :: cs

/-- Read the maximal leading digit run. -/
def readDigits : List Char → List Char × List Char
  | [] => ([], [])
  | c :: cs =>
    if c.isDigit then
      let (d, r) := readDigits cs
      (c :: d, r)
    else ([], c :: cs)

/-- Read `-?\d+`: optional minus sign then a nonempty digit run. -/
def readInt : List Char → Option (Int × List Char)
  | '-' :: cs =>
    match readDigits cs with
    | ([], _) => none
    | (ds, r) => some (-(digitsVal ds : Int), r)
  | cs =>
    match readDigits cs with
    | ([], _) => none
    | (ds, r) => some ((digitsVal ds : Nat), r)

/-- Model of `COORDS_RE.match`: `^\s*(-?\d+)\s*(?:x|,)\s*(-?\d+)\s*$` with
`re.IGNORECASE` (so the separator is `x`, `X` or `,`). -/
def coordsMatch (text : String) : Option (Int × Int) :=
  match readInt (skipWs text.toList) with
  | none => none
  | some (x, r1) =>
    match skipWs r1 with
    | sep :: r2 =>
      if sep = 'x' ∨ sep = 'X' ∨ sep = ',' then
        match readInt (skipWs r2) with
        | none => none
        | some (y, r3) => if skipWs r3 = [] then some (x, y) else none
      else none
    | [] => none

/-- Model of `parse_coords`: raises `ValueError` (the spec's `FormatError`) when the
coordinate grammar does not match. -/
def parse_coords (text : String) : Except String (Int × Int) :=
  match coordsMatch text with
  | none => .error ("Bad coords: '" ++ text ++ "'. Use 'XxY' or 'X,Y'")
  | some p => .ok p

/-! ## Effects

Each call the interpreter makes across the side-effect boundary
(`pyautogui`, `pyperclip`, `time.sleep`) is recorded as one `Effect`.
The embedding treats these external calls as opaque requests that always
succeed; their own runtime behaviour is outside the model. -/

/-- One side-effect request issued by the interpreter. -/
inductive Effect where
  | click (x y : Int) (clicks : Nat) (button : String)
  | clickrel (dx dy : Int) (clicks : Nat) (button : String)
  | sleep (seconds : ℚ)
  | press (key : String)
  | hotkey (keys : List String)
  | clipboardCopy (value : String)
  | typewrite (value : String)
  deriving Repr, DecidableEq

/-- Python substring test `needle in hay` on char lists. -/
def charsContain (needle : List Char) : List Char → Bool
  | [] => needle.isEmpty
  | c :: t => needle.isPrefixOf (c :: t) || charsContain needle t

/-- Python substring test `needle in hay` for strings. -/
def strContains (hay needle : String) : Bool := charsContain needle.toList hay.toList

/-- The set `SINGLE_KEYS` from `main.py`. -/
def SINGLE_KEYS : List String :=
  ["esc",
   "f1", "f2", "f3", "f4", "f5", "f6", "f7", "f8", "f9", "f10", "f11", "f12",
   "home", "end", "pageup", "pagedown", "up", "down", "left", "right", "delete",
   "backspace", "space"]

/-- Model of `send_hotkey_combo`: split the lowered combo on `+`, strip and drop empty
parts, and send one chord. -/
def send_hotkey_combo (combo : String) : Effect :=
  Effect.hotkey
    (((splitPlus (strLower combo).toList).map (fun k => String.mk (stripChars k))).filter
      (fun k => k ≠ ""))

/-- Model of `press_key_repeated`: `count = max(0, count)` then that many presses. -/
def press_key_repeated (key : String) (count : Int) : List Effect :=
  List.replicate count.toNat (Effect.press key)

/-- Model of `paste_value`: type directly, or set the clipboard and send Ctrl+V. -/
def paste_value (value : String) (entry_mode : String) : List Effect :=
  if entry_mode = "typing" then [Effect.typewrite value]
  else [Effect.clipboardCopy value, Effect.hotkey ["ctrl", "v"]]

/-- The line printed by `run_action`'s local `info`. -/
def infoLine (t : Token) (msg : String) : String := "  " ++ t.raw ++ ": " ++ msg

/-- Error text of Python `int()` on a bad literal. -/
def intError (val : String) : String :=
  "invalid literal for int() with base 10: '" ++ val ++ "'"

/-- Model of `run_action`: execute one (token, cell) pair.  Returns the effect list
issued across the side-effect boundary and the printed info lines, or the
raised error.  The pause/stop check at the top is a no-op in a run where
neither flag is ever set. -/
def run_action (t : Token) (cell_value : Option String) (entry_mode : String)
    (dry_run : Bool) (action_delay : ℚ) : Except String (List Effect × List String) :=
  let action := t.action
  let fp := t.fixparam.getD ""
  let val := pyStrip (cell_value.getD "")
  let finish : List Effect → List String → Except String (List Effect × List String) :=
    fun effs msgs =>
      Except.ok
        (effs ++ (if dry_run = false ∧ 0 < action_delay then [Effect.sleep action_delay] else []),
         msgs)
  if action = "click" ∨ action = "doubleclick" ∨ action = "rightclick" ∨ action = "clickrel" then
    let clicks : Nat := if action = "doubleclick" then 2 else 1
    let button := if action = "rightclick" then "right" else "left"
    if action = "clickrel" then
      match parse_coords (if fp ≠ "" then fp else val) with
      | .error e => .error e
      | .ok (dx, dy) =>
        finish (if dry_run then [] else [Effect.clickrel dx dy clicks button])
          [infoLine t ("clickrel dx=" ++ toString dx ++ ", dy=" ++ toString dy ++
            ", clicks=" ++ toString clicks ++ ", button=" ++ button)]
    else
      match parse_coords (if fp ≠ "" then fp else val) with
      | .error e => .error e
      | .ok (x, y) =>
        finish (if dry_run then [] else [Effect.click x y clicks button])
          [infoLine t ("click at (" ++ toString x ++ ", " ++ toString y ++ "), clicks=" ++
            toString clicks ++ ", button=" ++ button)]
  else if action = "wait" then
    match (if val ≠ "" then pyInt? val else some 0) with
    | none => .error (intError val)
    | some ms =>
      finish (if dry_run then [] else [Effect.sleep ((ms : ℚ) / 1000)])
        [infoLine t ("wait " ++ toString ms ++ " ms")]
  else if action = "tab" ∨ action = "shift+tab" then
    match (if val ≠ "" then pyInt? val else some 1) with
    | none => .error (intError val)
    | some n =>
      finish (if dry_run then [] else
          List.replicate n.toNat
            (if action = "tab" then Effect.press "tab" else Effect.hotkey ["shift", "tab"]))
        [infoLine t (action ++ " x " ++ toString n)]
  else if action = "enter" then
    match (if val ≠ "" then pyInt? val else some 1) with
    | none => .error (intError val)
    | some n =>
      finish (if dry_run then [] else press_key_repeated "enter" n)
        [infoLine t ("enter x " ++ toString n)]
  else if action = "text" then
    finish (if dry_run then [] else paste_value val entry_mode)
      [infoLine t ("text len=" ++ toString val.length)]
  else if strContains action "ctrl" ∨ strContains action "alt" ∨ strContains action "shift" ∨
      action ∈ SINGLE_KEYS then
    if action = "ctrl+v" ∧ val ≠ "" then
      finish (if dry_run then [] else [Effect.clipboardCopy val, send_hotkey_combo action])
        [infoLine t (action ++ " with clipboard value len=" ++ toString val.length)]
    else
      finish (if dry_run then [] else
          if strContains action "+" then [send_hotkey_combo action] else [Effect.press action])
        [infoLine t action]
  else
    -- unknown action: report and return early, skipping the trailing action delay
    .ok ([], [infoLine t "skipped (unknown action)"])

/-! ## Row scheduler (`process_csv`)

The file/CLI/focus/startup-delay I/O and the inter-row sleep are outside the
modelled outcomes; the scheduler below is the row loop of `process_csv`:
blank-row section reset, header parsing, `start-row` / `max-rows`
windowing, padding/truncation, and per-row execution with row-level error
catching. -/

/-- The scheduler configuration relevant to the row loop. -/
structure Config where
  entry_mode : String
  dry_run : Bool
  action_delay : ℚ
  start_row : Int
  max_rows : Nat
  deriving Repr, DecidableEq

/-- Mutable loop state of `process_csv`. -/
structure SchedState where
  current_tokens : Option (List Token)
  section_idx : Nat
  processed_count : Nat
  deriving Repr, DecidableEq

/-- Model of `is_blank_row`: all cells empty after trimming. -/
def is_blank_row (r : List String) : Bool := r.all (fun c => pyStrip c = "")

/-- The header-cell filter `[c for c in row if (c or "").strip() != ""]`. -/
def headerFilterCells (row : List String) : List String :=
  row.filter (fun c => pyStrip c ≠ "")

/-- Padding and truncation: `if len(row) < len(tokens)` pad with `""`, `elif >` truncate. -/
def padTrim (row : List String) (n : Nat) : List String :=
  if row.length < n then row ++ List.replicate (n - row.length) ""
  else if n < row.length then row.take n
  else row

/-- The inner `for token, cell in zip(...)` loop with its row-level
`try/except`: actions run left to right; the first raised error aborts the
remainder of the row and is caught (reported) at the row level.  Returns
the outputs of the completed calls and the caught error, if any. -/
def run_row (em : String) (dry : Bool) (ad : ℚ) :
    List (Token × String) → List (List Effect × List String) × Option String
  | [] => ([], none)
  | (t, c) :: rest =>
    match run_action t (some c) em dry ad with
    | .error e => ([], some e)
    | .ok out =>
      let (outs, err) := run_row em dry ad rest
      (out :: outs, err)

/-- What the scheduler did with one CSV row. -/
inductive Outcome where
  | blank
  | header (hdr : List String) (toks : List Token)
  | headerError (msg : String)
  | skippedStartRow
  | maxRowsStop
  | data (outs : List (List Effect × List String)) (err : Option String)
  deriving Repr, DecidableEq

/-- The row loop of `process_csv` over the remaining rows, with `i` the
absolute 1-based CSV line number of the first of them.  Produces the
per-row outcomes in order; the `max-rows` break ends the list.  The stop
flag is never set during the modelled run, so the stop check never fires. -/
def process_rows (cfg : Config) : SchedState → Nat → List (List String) → List (Nat × Outcome)
  | _, _, [] => []
  | st, i, row :: rest =>
    if is_blank_row row then
      (i, Outcome.blank) :: process_rows cfg { st with current_tokens := none } (i + 1) rest
    else
      match st.current_tokens with
      | none =>
        let hdr := headerFilterCells row
        match parse_header hdr with
        | .error e =>
          (i, Outcome.headerError e) ::
            process_rows cfg { st with current_tokens := none } (i + 1) rest
        | .ok toks =>
          (i, Outcome.header hdr toks) ::
            process_rows cfg
              { st with current_tokens := some toks, section_idx := st.section_idx + 1 }
              (i + 1) rest
      | some toks =>
        if (i : Int) < max 1 cfg.start_row then
          (i, Outcome.skippedStartRow) :: process_rows cfg st (i + 1) rest
        else if cfg.max_rows ≠ 0 ∧ cfg.max_rows ≤ st.processed_count then
          [(i, Outcome.maxRowsStop)]
        else
          let padded := padTrim row toks.length
          let (outs, err) := run_row cfg.entry_mode cfg.dry_run cfg.action_delay (toks.zip padded)
          (i, Outcome.data outs err) ::
            process_rows cfg { st with processed_count := st.processed_count + 1 } (i + 1) rest

/-- Model of `process_csv` on an already-read row list: start with no active section,
at absolute line number 1. -/
def process_csv (cfg : Config) (rows : List (List String)) : List (Nat × Outcome) :=
  process_rows cfg ⟨none, 0, 0⟩ 1 rows

/-! ## Result projections -/

/-- Effects of an interpreter result (an error has issued none that we keep:
the projection is used for dry-run claims where the result is `ok`). -/
def effectsOf (r : Except String (List Effect × List String)) : List Effect :=
  match r with
  | .ok (effs, _) => effs
  | .error _ => []

/-- Info lines of an interpreter result. -/
def msgsOf (r : Except String (List Effect × List String)) : List String :=
  match r with
  | .ok (_, msgs) => msgs
  | .error _ => []

/-- Number of `run_action` invocations made on a row: completed calls plus
the one that raised, if any. -/
def numInvocations (res : List (List Effect × List String) × Option String) : Nat :=
  res.1.length + (match res.2 with | some _ => 1 | none => 0)

/-- Is an effect a key-injection request (`press` or `hotkey`)? -/
def isKeyEffect : Effect → Bool
  | Effect.press _ => true
  | Effect.hotkey _ => true
  | _ => false

/-- Did the interpreter succeed? -/
def isOkRes (r : Except String (List Effect × List String)) : Bool :=
  match r with
  | .ok _ => true
  | .error _ => false

/-- The raised error of an interpreter result, if any. -/
def errorOf (r : Except String (List Effect × List String)) : Option String :=
  match r with
  | .ok _ => none
  | .error e => some e

/-! ## Specification-side coordinate grammar (for the amended C4)

`CoordShape s x y` states, in the words of the amended claim, that `s`
consists of optional whitespace, an integer written as an optional minus
sign followed by ASCII digits, optional whitespace, a separator `x`, `X`
or `,`, optional whitespace, a second such integer, and optional trailing
whitespace, with `x` and `y` their decimal values. -/

/-- Decimal value with an optional minus sign. -/
def signVal (sgn : Bool) (n : Nat) : Int := if sgn then -(n : Int) else (n : Int)

/-- The coordinate-string shape accepted by the amended C4 claim. -/
def CoordShape (s : String) (x y : Int) : Prop :=
  ∃ (w1 : List Char) (s1 : Bool) (d1 : List Char) (w2 : List Char) (sep : Char)
    (w3 : List Char) (s2 : Bool) (d2 : List Char) (w4 : List Char),
    s.toList = w1 ++ ((if s1 then ['-'] else []) ++ (d1 ++ (w2 ++ (sep ::
      (w3 ++ ((if s2 then ['-'] else []) ++ (d2 ++ w4))))))) ∧
    (∀ c ∈ w1, c.isWhitespace) ∧ (∀ c ∈ w2, c.isWhitespace) ∧
    (∀ c ∈ w3, c.isWhitespace) ∧ (∀ c ∈ w4, c.isWhitespace) ∧
    d1 ≠ [] ∧ (∀ c ∈ d1, c.isDigit) ∧ d2 ≠ [] ∧ (∀ c ∈ d2, c.isDigit) ∧
    (sep = 'x' ∨ sep = 'X' ∨ sep = ',') ∧
    x = signVal s1 (digitsVal d1) ∧ y = signVal s2 (digitsVal d2)

end CopyPasteMove

section Scratch
open CopyPasteMove
example : (headerMatch "click-100x200_1").map (fun g => (String.mk g.1, g.2.1.map String.mk, String.mk g.2.2))
    = some ("click-100x200", none, "1") := by rfl
example : (headerMatch "click-100,200_1").map (fun g => (String.mk g.1, g.2.1.map String.mk, String.mk g.2.2))
    = some ("click", some "100,200", "1") := by rfl
example : (headerMatch "foo_1").map (fun g => (String.mk g.1, g.2.1.map String.mk, String.mk g.2.2))
    = some ("foo", none, "1") := by rfl
example : headerMatch "click" = none := by rfl
example : headerMatch "foo bar_1" = none := by rfl
example : headerMatch "a-b_c_1" = none := by rfl
example : (headerMatch "ctrl+v_1").map (fun g => (String.mk g.1, g.2.1.map String.mk, String.mk g.2.2))
    = some ("ctrl+v", none, "1") := by rfl
example : (headerMatch "click-_1").map (fun g => (String.mk g.1, g.2.1.map String.mk, String.mk g.2.2))
    = some ("click-", none, "1") := by rfl
example : (headerMatch "CLICK-100X200_3").map (fun g => (String.mk g.1, g.2.1.map String.mk, String.mk g.2.2))
    = some ("CLICK-100X200", none, "3") := by rfl
example : (headerMatch "click- 1,2_1").map (fun g => (String.mk g.1, g.2.1.map String.mk, String.mk g.2.2))
    = some ("click", some " 1,2", "1") := by rfl
example : parse_coords "+1x2" = .error "Bad coords: '+1x2'. Use 'XxY' or 'X,Y'" := by rfl
example : parse_coords " 1x2 " = .ok (1, 2) := by rfl
example : parse_coords "1X2" = .ok (1, 2) := by rfl
example : parse_coords "-5,-7" = .ok (-5, -7) := by rfl
example : parse_coords "1 , 2" = .ok (1, 2) := by rfl
example : parse_coords "1xx2" = .error "Bad coords: '1xx2'. Use 'XxY' or 'X,Y'" := by rfl
example : parse_coords "1x" = .error "Bad coords: '1x'. Use 'XxY' or 'X,Y'" := by rfl
example : pyInt? "5_0" = some 50 := by rfl
example : pyInt? "abc" = none := by rfl
example : pyInt? "+5" = some 5 := by rfl
example : pyInt? "-3" = some (-3) := by rfl
example : pyInt? "1_" = none := by rfl
example : pyInt? "_1" = none := by rfl
example : pyInt? "1__2" = none := by rfl
example : pyInt? "" = none := by rfl
example : run_action ⟨"click-100x200_1", "click-100x200", 1, none⟩ (some "") "clipboard" true 0
    = .ok ([], ["  click-100x200_1: skipped (unknown action)"]) := by rfl
example : run_action ⟨"click-100,200_1", "click", 1, some "100,200"⟩ (some "") "clipboard" true 0
    = .ok ([], ["  click-100,200_1: click at (100, 200), clicks=1, button=left"]) := by rfl
example : run_action ⟨"click_1", "click", 1, none⟩ (some "30x40") "clipboard" false 0
    = .ok ([Effect.click 30 40 1 "left"], ["  click_1: click at (30, 40), clicks=1, button=left"]) := by
  rfl
example : run_action ⟨"wait_1", "wait", 1, none⟩ (some "abc") "clipboard" true 0
    = .error "invalid literal for int() with base 10: 'abc'" := by rfl
example : run_action ⟨"tab_1", "tab", 1, none⟩ (some "-3") "clipboard" false 0
    = .ok ([], ["  tab_1: tab x -3"]) := by rfl
example : run_action ⟨"tab_1", "tab", 1, none⟩ (some "2") "clipboard" false 0
    = .ok ([Effect.press "tab", Effect.press "tab"], ["  tab_1: tab x 2"]) := by rfl
example : run_action ⟨"ctrl+v_1", "ctrl+v", 1, none⟩ (some "hi") "clipboard" false 0
    = .ok ([Effect.clipboardCopy "hi", Effect.hotkey ["ctrl", "v"]],
        ["  ctrl+v_1: ctrl+v with clipboard value len=2"]) := by rfl
example : run_action ⟨"ctrl+v_1", "ctrl+v", 1, none⟩ (some "hi") "clipboard" true (1/4)
    = .ok ([], ["  ctrl+v_1: ctrl+v with clipboard value len=2"]) := by rfl
example : run_action ⟨"esc_1", "esc", 1, none⟩ (some "") "clipboard" false 0
    = .ok ([Effect.press "esc"], ["  esc_1: esc"]) := by rfl
example : run_action ⟨"foo_1", "foo", 1, none⟩ (some "x") "clipboard" false (1/4)
    = .ok ([], ["  foo_1: skipped (unknown action)"]) := by rfl
example :
    process_csv ⟨"clipboard", true, 0, 1, 0⟩ [["foo_1"], ["x"]]
    = [(1, Outcome.header ["foo_1"] [⟨"foo_1", "foo", 1, none⟩]),
       (2, Outcome.data [([], ["  foo_1: skipped (unknown action)"])] none)] := by rfl
example :
    process_csv ⟨"clipboard", true, 0, 1, 0⟩ [["click-100x200_1"], []]
    = [(1, Outcome.header ["click-100x200_1"] [⟨"click-100x200_1", "click-100x200", 1, none⟩]),
       (2, Outcome.blank)] := by rfl
end Scratch

namespace CopyPasteMove

/-! ## Helper lemmas -/

theorem padTrim_length (row : List String) (n : Nat) : (padTrim row n).length = n := by
  unfold padTrim
  split
  · simp only [List.length_append, List.length_replicate]
    omega
  · split
    · simp only [List.length_take]
      omega
    · omega

theorem run_row_nil (em : String) (dry : Bool) (ad : ℚ) :
    run_row em dry ad [] = ([], none) := rfl

theorem run_row_cons (em : String) (dry : Bool) (ad : ℚ) (t : Token) (c : String)
    (rest : List (Token × String)) :
    run_row em dry ad ((t, c) :: rest)
      = match run_action t (some c) em dry ad with
        | .error e => ([], some e)
        | .ok out => ((out :: (run_row em dry ad rest).1), (run_row em dry ad rest).2) := by
  cases hr : run_action t (some c) em dry ad with
  | error e => simp [run_row, hr]
  | ok out =>
    rcases hrr : run_row em dry ad rest with ⟨outs, err⟩
    simp [run_row, hr, hrr]

theorem run_row_length_of_no_error (em : String) (dry : Bool) (ad : ℚ) :
    ∀ pairs : List (Token × String), (run_row em dry ad pairs).2 = none →
      ((run_row em dry ad pairs).1).length = pairs.length := by
  intro pairs
  induction pairs with
  | nil => intro _; rfl
  | cons p rest ih =>
    obtain ⟨t, c⟩ := p
    intro h
    rw [run_row_cons] at h ⊢
    cases hr : run_action t (some c) em dry ad with
    | error e => rw [hr] at h; simp at h
    | ok out =>
      rw [hr] at h
      simp at h ⊢
      have := ih h
      omega

theorem parse_header_length :
    ∀ (hs : List String) (ts : List Token), parse_header hs = .ok ts → ts.length = hs.length := by
  intro hs
  induction hs with
  | nil =>
    intro ts h
    simp only [parse_header] at h
    cases h
    rfl
  | cons h rest ih =>
    intro ts hok
    simp only [parse_header] at hok
    cases hm : headerMatch (pyStrip h) with
    | none => rw [hm] at hok; cases hok
    | some g =>
      obtain ⟨act, fix, seqDigits⟩ := g
      rw [hm] at hok
      cases hr : parse_header rest with
      | error e => rw [hr] at hok; cases hok
      | ok toks =>
        rw [hr] at hok
        cases hok
        simp only [List.length_cons]
        exact congrArg (· + 1) (ih toks hr)

theorem process_rows_blank (cfg : Config) (st : SchedState) (i : Nat) (row : List String)
    (rest : List (List String)) (hb : is_blank_row row = true) :
    process_rows cfg st i (row :: rest)
      = (i, Outcome.blank) :: process_rows cfg { st with current_tokens := none } (i + 1) rest := by
  conv_lhs => rw [process_rows]
  simp [hb]

theorem process_rows_header_error (cfg : Config) (st : SchedState) (i : Nat) (row : List String)
    (rest : List (List String)) (hst : st.current_tokens = none) (hnb : is_blank_row row = false)
    (e : String) (he : parse_header (headerFilterCells row) = .error e) :
    process_rows cfg st i (row :: rest)
      = (i, Outcome.headerError e) ::
          process_rows cfg { st with current_tokens := none } (i + 1) rest := by
  conv_lhs => rw [process_rows]
  rw [hst]
  simp [hnb, he]

theorem process_rows_header_ok (cfg : Config) (st : SchedState) (i : Nat) (row : List String)
    (rest : List (List String)) (hst : st.current_tokens = none) (hnb : is_blank_row row = false)
    (toks : List Token) (ht : parse_header (headerFilterCells row) = .ok toks) :
    process_rows cfg st i (row :: rest)
      = (i, Outcome.header (headerFilterCells row) toks) ::
          process_rows cfg
            { st with current_tokens := some toks, section_idx := st.section_idx + 1 }
            (i + 1) rest := by
  conv_lhs => rw [process_rows]
  rw [hst]
  simp [hnb, ht]

theorem process_rows_skipped (cfg : Config) (st : SchedState) (i : Nat) (row : List String)
    (rest : List (List String)) (toks : List Token) (hst : st.current_tokens = some toks)
    (hnb : is_blank_row row = false) (hlt : (i : Int) < max 1 cfg.start_row) :
    process_rows cfg st i (row :: rest)
      = (i, Outcome.skippedStartRow) :: process_rows cfg st (i + 1) rest := by
  conv_lhs => rw [process_rows]
  rw [hst]
  simp [hnb, hlt]

end CopyPasteMove

namespace CopyPasteMove

/-! ## Claim theorems -/

/-- C1: the claim (and the program's own docstring, which advertises
`click-100x1200_1` as a fixed-coordinate click) says parsing the header
token `click-100x200_1` yields action `click` with fixed parameter
`100x200`, and that dry-running the section reports a click at (100, 200).
In the code, the greedy action class `[a-z0-9+\-]+` of `HEADER_RE` also
matches `-`, digits and `x`, so the whole of `click-100x200` is consumed
as the action and no fixparam is captured; the interpreter then reports
the token as an unknown, skipped action.  A token carrying the intended
action/fixparam split would indeed report the (100, 200) click, so the
slip is in the regex: code bug. -/
theorem C1_click_fixparam_code_bug :
    parse_header ["click-100x200_1"]
      = .ok [⟨"click-100x200_1", "click-100x200", 1, none⟩] ∧
    run_action ⟨"click-100x200_1", "click-100x200", 1, none⟩ (some "") "clipboard" true (1/4)
      = .ok ([], ["  click-100x200_1: skipped (unknown action)"]) ∧
    run_action ⟨"click-100x200_1", "click", 1, some "100x200"⟩ (some "") "clipboard" true (1/4)
      = .ok ([], ["  click-100x200_1: click at (100, 200), clicks=1, button=left"]) :=
  ⟨rfl, rfl, rfl⟩

/-- C2 (counterexample): the claim says the header token `foo_1` causes a
reported format error and no section becomes active.  In fact `foo`
matches the action class of `HEADER_RE`, so `parse_header` succeeds and
the scheduler activates the section. -/
theorem C2_foo_header_counterexample :
    parse_header ["foo_1"] = .ok [⟨"foo_1", "foo", 1, none⟩] ∧
    (process_csv ⟨"clipboard", true, 0, 1, 0⟩ [["foo_1"], ["x"]]).head?
      = some (1, Outcome.header ["foo_1"] [⟨"foo_1", "foo", 1, none⟩]) :=
  ⟨rfl, rfl⟩

/-- C2 (amended): a header row containing the token `foo_1` parses
successfully (action `foo`, sequence 1) because the grammar accepts any
letter run as an action name; the section becomes active, and the
following non-blank row is treated as a data row whose single action is
reported as `skipped (unknown action)`. -/
theorem C2_foo_header_amended :
    process_csv ⟨"clipboard", true, 0, 1, 0⟩ [["foo_1"], ["x"]]
      = [(1, Outcome.header ["foo_1"] [⟨"foo_1", "foo", 1, none⟩]),
         (2, Outcome.data [([], ["  foo_1: skipped (unknown action)"])] none)] := rfl

/-- C3 (counterexample): under the section `click_1, wait_2`, the data row
`abc, 5` makes the first action raise a coordinate format error, which
aborts the remainder of the row: only one `run_action` invocation happens,
not two as the claim ("the number of action executions equals the number
of tokens", for every data row) requires. -/
theorem C3_row_abort_counterexample :
    ¬ numInvocations (run_row "clipboard" true 0
          ([⟨"click_1", "click", 1, none⟩, ⟨"wait_2", "wait", 2, none⟩].zip
            (padTrim ["abc", "5"] 2)))
        = ([⟨"click_1", "click", 1, none⟩, ⟨"wait_2", "wait", 2, none⟩] : List Token).length := by
  decide

/-- C3 (amended): for every data row on which no action raises an error,
the number of (token, cell) executions equals the number of tokens of the
active section — shorter rows are padded with empty cells and longer rows
truncated; when an action does raise, the remaining tokens of that row
are skipped. -/
theorem C3_no_error_executes_all (em : String) (dry : Bool) (ad : ℚ)
    (toks : List Token) (row : List String)
    (h : (run_row em dry ad (toks.zip (padTrim row toks.length))).2 = none) :
    ((run_row em dry ad (toks.zip (padTrim row toks.length))).1).length = toks.length := by
  rw [run_row_length_of_no_error em dry ad _ h]
  rw [List.length_zip, padTrim_length]
  exact Nat.min_self _

theorem C3_no_error_executes_all_witness :
    ((run_row "clipboard" true 0
        ([⟨"tab_1", "tab", 1, none⟩, ⟨"enter_2", "enter", 2, none⟩].zip
          (padTrim ["2"]
            ([⟨"tab_1", "tab", 1, none⟩, ⟨"enter_2", "enter", 2, none⟩] : List Token).length))).1).length
      = ([⟨"tab_1", "tab", 1, none⟩, ⟨"enter_2", "enter", 2, none⟩] : List Token).length :=
  C3_no_error_executes_all "clipboard" true 0 _ ["2"] rfl

/-- C6: when a non-blank row arrives with no active section and its
(blank-filtered) cells fail header parsing, the error is reported as the
row's outcome, the scheduler stays in AWAITING_HEADER with the state
otherwise untouched, and processing resumes at the next row. -/
theorem C6_bad_header_row (cfg : Config) (st : SchedState) (i : Nat) (row : List String)
    (rest : List (List String)) (hst : st.current_tokens = none)
    (hnb : is_blank_row row = false) (e : String)
    (he : parse_header (headerFilterCells row) = .error e) :
    process_rows cfg st i (row :: rest)
      = (i, Outcome.headerError e) :: process_rows cfg st (i + 1) rest := by
  rw [process_rows_header_error cfg st i row rest hst hnb e he]
  have hst' : { st with current_tokens := none } = st := by
    cases st
    simp_all
  rw [hst']

theorem C6_bad_header_row_witness :
    process_rows ⟨"clipboard", true, 0, 1, 0⟩ ⟨none, 0, 0⟩ 1 [["click"], ["tab_1"]]
      = (1, Outcome.headerError
            "Bad header token: 'click'. Expected like 'ctrl+v_1' or 'click-100x1200_2'") ::
          process_rows ⟨"clipboard", true, 0, 1, 0⟩ ⟨none, 0, 0⟩ (1 + 1) [["tab_1"]] :=
  C6_bad_header_row ⟨"clipboard", true, 0, 1, 0⟩ ⟨none, 0, 0⟩ 1 ["click"] [["tab_1"]] rfl rfl _ rfl

/-- C8: a data row whose absolute 1-based line number is below `start-row`
is skipped without executing anything, while blank rows and header rows
are handled identically at every line number: a blank row resets the
section and a parsable header row becomes the active section. -/
theorem C8_start_row_windowing (cfg : Config) (st : SchedState) (i : Nat)
    (row : List String) (rest : List (List String)) :
    (∀ toks, st.current_tokens = some toks → is_blank_row row = false →
        (i : Int) < max 1 cfg.start_row →
        process_rows cfg st i (row :: rest)
          = (i, Outcome.skippedStartRow) :: process_rows cfg st (i + 1) rest) ∧
    (is_blank_row row = true →
        process_rows cfg st i (row :: rest)
          = (i, Outcome.blank) ::
              process_rows cfg { st with current_tokens := none } (i + 1) rest) ∧
    (∀ toks, st.current_tokens = none → is_blank_row row = false →
        parse_header (headerFilterCells row) = .ok toks →
        process_rows cfg st i (row :: rest)
          = (i, Outcome.header (headerFilterCells row) toks) ::
              process_rows cfg
                { st with current_tokens := some toks, section_idx := st.section_idx + 1 }
                (i + 1) rest) :=
  ⟨fun toks hst hnb hlt => process_rows_skipped cfg st i row rest toks hst hnb hlt,
   fun hb => process_rows_blank cfg st i row rest hb,
   fun toks hst hnb ht => process_rows_header_ok cfg st i row rest hst hnb toks ht⟩

theorem C8_start_row_windowing_witness :
    (process_rows ⟨"clipboard", true, 0, 5, 0⟩ ⟨some [⟨"tab_1", "tab", 1, none⟩], 1, 0⟩ 2 [["x"]]
      = (2, Outcome.skippedStartRow) ::
          process_rows ⟨"clipboard", true, 0, 5, 0⟩ ⟨some [⟨"tab_1", "tab", 1, none⟩], 1, 0⟩
            (2 + 1) []) ∧
    (process_rows ⟨"clipboard", true, 0, 5, 0⟩ ⟨some [⟨"tab_1", "tab", 1, none⟩], 1, 0⟩ 2 [[""]]
      = (2, Outcome.blank) :: process_rows ⟨"clipboard", true, 0, 5, 0⟩ ⟨none, 1, 0⟩ (2 + 1) []) ∧
    (process_rows ⟨"clipboard", true, 0, 5, 0⟩ ⟨none, 1, 0⟩ 2 [["enter_1"]]
      = (2, Outcome.header ["enter_1"] [⟨"enter_1", "enter", 1, none⟩]) ::
          process_rows ⟨"clipboard", true, 0, 5, 0⟩ ⟨some [⟨"enter_1", "enter", 1, none⟩], 1 + 1, 0⟩
            (2 + 1) []) :=
  ⟨(C8_start_row_windowing _ _ _ _ _).1 _ rfl rfl (by decide),
   (C8_start_row_windowing _ _ _ _ _).2.1 rfl,
   (C8_start_row_windowing _ _ _ _ _).2.2 _ rfl rfl rfl⟩

/-- C10: blank-after-trimming cells of a header row are filtered out
before parsing — inserting a blank cell anywhere in a header row leaves
the filtered cells unchanged — and on success the active section's token
count equals the number of non-blank cells of the row. -/
theorem C10_header_blank_cells (row r1 r2 : List String) (b : String) (toks : List Token)
    (hb : pyStrip b = "") :
    headerFilterCells (r1 ++ b :: r2) = headerFilterCells (r1 ++ r2) ∧
    (parse_header (headerFilterCells row) = .ok toks →
      toks.length = row.countP (fun c => pyStrip c ≠ "")) := by
  constructor
  · simp [headerFilterCells, List.filter_append, hb]
  · intro h
    rw [parse_header_length _ _ h]
    simp [headerFilterCells, List.countP_eq_length_filter]

theorem C10_header_blank_cells_witness :
    headerFilterCells ([""] ++ " " :: ["tab_1", "enter_2"])
      = headerFilterCells ([""] ++ ["tab_1", "enter_2"]) ∧
    ([⟨"tab_1", "tab", 1, none⟩, ⟨"enter_2", "enter", 2, none⟩] : List Token).length
      = (["", "tab_1", " ", "enter_2"] : List String).countP (fun c => pyStrip c ≠ "") :=
  ⟨(C10_header_blank_cells ["", "tab_1", " ", "enter_2"] [""] ["tab_1", "enter_2"] " "
      [] rfl).1,
   (C10_header_blank_cells ["", "tab_1", " ", "enter_2"] [""] ["tab_1", "enter_2"] " "
      [⟨"tab_1", "tab", 1, none⟩, ⟨"enter_2", "enter", 2, none⟩] rfl).2 rfl⟩

end CopyPasteMove

namespace CopyPasteMove

/-- C9: for the `tab`, `shift+tab` and `enter` actions, a cell holding a
non-positive integer is clamped to zero repetitions: the action completes
without error and issues no key-injection effect. -/
theorem C9_nonpositive_repeat_clamped (t : Token) (cell : Option String) (em : String)
    (dry : Bool) (ad : ℚ) (n : Int)
    (ha : t.action = "tab" ∨ t.action = "shift+tab" ∨ t.action = "enter")
    (hn : pyInt? (pyStrip (cell.getD "")) = some n) (hle : n ≤ 0) :
    isOkRes (run_action t cell em dry ad) = true ∧
    (effectsOf (run_action t cell em dry ad)).filter isKeyEffect = [] := by
  have hval : pyStrip (cell.getD "") ≠ "" := by
    intro hv
    rw [hv] at hn
    exact Option.noConfusion (show (none : Option Int) = some n from hn)
  have htn : n.toNat = 0 := Int.toNat_eq_zero.mpr hle
  rcases ha with h | h | h <;>
    simp [run_action, h, hval, hn, htn, press_key_repeated, isOkRes, effectsOf,
      isKeyEffect] <;>
    intro a _ _ ha' <;> subst ha' <;> rfl

theorem C9_nonpositive_repeat_clamped_witness :
    isOkRes (run_action ⟨"tab_1", "tab", 1, none⟩ (some "-3") "clipboard" false (1/4)) = true ∧
    (effectsOf (run_action ⟨"tab_1", "tab", 1, none⟩ (some "-3") "clipboard" false (1/4))).filter
        isKeyEffect = [] :=
  C9_nonpositive_repeat_clamped ⟨"tab_1", "tab", 1, none⟩ (some "-3") "clipboard" false (1/4)
    (-3) (Or.inl rfl) rfl (by decide)

end CopyPasteMove

namespace CopyPasteMove

/-- C7 (counterexample): the claim says executing `wait`, `tab`,
`shift+tab` or `enter` never fails for any cell value; but a cell that is
not a Python integer literal makes `int(val)` raise, so `wait` with cell
`abc` fails even in dry-run. -/
theorem C7_wait_nonint_counterexample :
    run_action ⟨"wait_1", "wait", 1, none⟩ (some "abc") "clipboard" true (1/4)
      = .error "invalid literal for int() with base 10: 'abc'" := rfl

/-- C7 (amended): for `wait`, `tab`, `shift+tab` and `enter`, a blank cell
defaults to 0 milliseconds (`wait`) or a repeat count of 1 (the other
three), and execution succeeds whenever the cell is blank or parses as an
integer; a non-integer cell raises a format error instead. -/
theorem C7_blank_defaults_and_int_cells (t : Token) (cell : Option String) (em : String)
    (dry : Bool) (ad : ℚ)
    (ha : t.action = "wait" ∨ t.action = "tab" ∨ t.action = "shift+tab" ∨ t.action = "enter")
    (hc : pyStrip (cell.getD "") = "" ∨ (pyInt? (pyStrip (cell.getD ""))).isSome = true) :
    isOkRes (run_action t cell em dry ad) = true ∧
    (pyStrip (cell.getD "") = "" →
      msgsOf (run_action t cell em dry ad)
        = [infoLine t (if t.action = "wait" then "wait 0 ms" else t.action ++ " x 1")]) := by
  rcases hc with hv | hs
  · rcases ha with h | h | h | h <;>
      simp [run_action, h, hv, isOkRes, msgsOf, infoLine] <;> rfl
  · obtain ⟨n, hn⟩ := Option.isSome_iff_exists.mp hs
    have hval : pyStrip (cell.getD "") ≠ "" := by
      intro hv
      rw [hv] at hn
      exact Option.noConfusion (show (none : Option Int) = some n from hn)
    rcases ha with h | h | h | h <;>
      simp [run_action, h, hval, hn, isOkRes, msgsOf]

theorem C7_blank_defaults_and_int_cells_witness :
    (isOkRes (run_action ⟨"wait_1", "wait", 1, none⟩ (some "") "clipboard" true 0) = true ∧
      msgsOf (run_action ⟨"wait_1", "wait", 1, none⟩ (some "") "clipboard" true 0)
        = [infoLine ⟨"wait_1", "wait", 1, none⟩
            (if ("wait" : String) = "wait" then "wait 0 ms" else "wait" ++ " x 1")]) ∧
    isOkRes (run_action ⟨"enter_1", "enter", 1, none⟩ (some "7") "clipboard" false (1/4)) = true :=
  ⟨⟨(C7_blank_defaults_and_int_cells ⟨"wait_1", "wait", 1, none⟩ (some "") "clipboard" true 0
       (Or.inl rfl) (Or.inl rfl)).1,
    (C7_blank_defaults_and_int_cells ⟨"wait_1", "wait", 1, none⟩ (some "") "clipboard" true 0
       (Or.inl rfl) (Or.inl rfl)).2 rfl⟩,
   (C7_blank_defaults_and_int_cells ⟨"enter_1", "enter", 1, none⟩ (some "7") "clipboard" false
       (1/4) (Or.inr (Or.inr (Or.inr rfl))) (Or.inr rfl)).1⟩

end CopyPasteMove

namespace CopyPasteMove

/-- C5: with the dry-run flag set the interpreter issues no effect at all —
no input injection, no clipboard write, no sleep — while raising exactly
the same error, if any, as the live run on the same token and cell: the
dry-run flag changes no input validation. -/
theorem C5_dry_run_no_effects_same_validation (t : Token) (cell : Option String)
    (em : String) (ad : ℚ) :
    effectsOf (run_action t cell em true ad) = [] ∧
    errorOf (run_action t cell em true ad) = errorOf (run_action t cell em false ad) := by
  by_cases h1 : t.action = "click" ∨ t.action = "doubleclick" ∨ t.action = "rightclick" ∨
      t.action = "clickrel"
  · rcases h1 with h | h | h | h <;>
      (cases hpc : parse_coords (if t.fixparam.getD "" = "" then pyStrip (cell.getD "")
          else t.fixparam.getD "") with
      | error e => simp [run_action, h, hpc, effectsOf, errorOf]
      | ok p =>
        obtain ⟨x, y⟩ := p
        simp [run_action, h, hpc, effectsOf, errorOf])
  · by_cases h2 : t.action = "wait"
    · cases hm : (if pyStrip (cell.getD "") = "" then some 0
          else pyInt? (pyStrip (cell.getD ""))) with
      | none => simp [run_action, h1, h2, hm, effectsOf, errorOf]
      | some ms => simp [run_action, h1, h2, hm, effectsOf, errorOf]
    · by_cases h3 : t.action = "tab" ∨ t.action = "shift+tab"
      · cases hm : (if pyStrip (cell.getD "") = "" then some 1
            else pyInt? (pyStrip (cell.getD ""))) with
        | none => simp [run_action, h1, h2, h3, hm, effectsOf, errorOf]
        | some n => simp [run_action, h1, h2, h3, hm, effectsOf, errorOf]
      · by_cases h4 : t.action = "enter"
        · cases hm : (if pyStrip (cell.getD "") = "" then some 1
              else pyInt? (pyStrip (cell.getD ""))) with
          | none => simp [run_action, h1, h2, h3, h4, hm, effectsOf, errorOf]
          | some n => simp [run_action, h1, h2, h3, h4, hm, effectsOf, errorOf]
        · by_cases h5 : t.action = "text"
          · simp [run_action, h1, h2, h3, h4, h5, effectsOf, errorOf]
          · by_cases h6 : strContains t.action "ctrl" = true ∨
                strContains t.action "alt" = true ∨
                strContains t.action "shift" = true ∨ t.action ∈ SINGLE_KEYS
            · by_cases h7 : t.action = "ctrl+v" ∧ pyStrip (cell.getD "") ≠ ""
              · have hcv : strContains "ctrl+v" "ctrl" = true := rfl
                simp [run_action, h1, h2, h3, h4, h5, h6, h7, hcv, effectsOf, errorOf]
              · simp [run_action, h1, h2, h3, h4, h5, h6, h7, effectsOf, errorOf]
            · simp [run_action, h1, h2, h3, h4, h5, h6, effectsOf, errorOf]

end CopyPasteMove

namespace CopyPasteMove

/-! ## Lemmas about the coordinate parser -/

theorem digit_not_ws (c : Char) (hc : c.isDigit = true) : c.isWhitespace = false := by
  have h : c.isWhitespace = true → False := by
    intro hws
    simp [Char.isWhitespace] at hws
    rcases hws with ((h | h) | h) | h <;> subst h <;> exact absurd hc (by decide)
  cases hws : c.isWhitespace with
  | false => rfl
  | true => exact (h hws).elim

theorem skipWs_ws_append (w rest : List Char) (hw : ∀ c ∈ w, c.isWhitespace) :
    skipWs (w ++ rest) = skipWs rest := by
  induction w with
  | nil => rfl
  | cons c w ih =>
    simp only [List.cons_append, skipWs]
    rw [if_pos (hw c (by simp))]
    exact ih (fun d hd => hw d (by simp [hd]))

theorem skipWs_cons_not_ws (c : Char) (rest : List Char) (hc : c.isWhitespace = false) :
    skipWs (c :: rest) = c :: rest := by
  simp [skipWs, hc]

theorem skipWs_all_ws_nil (w : List Char) (hw : ∀ c ∈ w, c.isWhitespace) :
    skipWs w = [] := by
  have := skipWs_ws_append w [] hw
  simpa using this

theorem skipWs_decomp (cs : List Char) :
    ∃ w, cs = w ++ skipWs cs ∧ (∀ c ∈ w, c.isWhitespace) := by
  induction cs with
  | nil => exact ⟨[], rfl, by simp⟩
  | cons c cs ih =>
    by_cases hc : c.isWhitespace
    · obtain ⟨w, hw1, hw2⟩ := ih
      refine ⟨c :: w, ?_, ?_⟩
      · simp only [skipWs, hc, if_true, List.cons_append]
        rw [← hw1]
      · intro d hd
        simp only [List.mem_cons] at hd
        rcases hd with rfl | hd
        · exact hc
        · exact hw2 d hd
    · refine ⟨[], ?_, by simp⟩
      have hcf : c.isWhitespace = false := by
        cases h : c.isWhitespace with
        | false => rfl
        | true => exact absurd h hc
      rw [skipWs_cons_not_ws c cs hcf]
      rfl

theorem skipWs_nil_all_ws (cs : List Char) (h : skipWs cs = []) : ∀ c ∈ cs, c.isWhitespace := by
  induction cs with
  | nil => simp
  | cons c cs ih =>
    by_cases hc : c.isWhitespace
    · rw [skipWs, if_pos hc] at h
      intro d hd
      simp only [List.mem_cons] at hd
      rcases hd with rfl | hd
      · exact hc
      · exact ih h d hd
    · have hcf : c.isWhitespace = false := by
        cases hb : c.isWhitespace with
        | false => rfl
        | true => exact absurd hb hc
      rw [skipWs_cons_not_ws c cs hcf] at h
      cases h

theorem readDigits_cons_digit (c : Char) (cs : List Char) (hc : c.isDigit = true) :
    readDigits (c :: cs) = (c :: (readDigits cs).1, (readDigits cs).2) := by
  rcases h : readDigits cs with ⟨a, b⟩
  simp [readDigits, hc, h]

theorem readDigits_cons_not_digit (c : Char) (cs : List Char) (hc : c.isDigit = false) :
    readDigits (c :: cs) = ([], c :: cs) := by
  simp [readDigits, hc]

theorem readDigits_digits_append (d rest : List Char) (hd : ∀ c ∈ d, c.isDigit)
    (hrest : ∀ c r, rest = c :: r → c.isDigit = false) :
    readDigits (d ++ rest) = (d, rest) := by
  induction d with
  | nil =>
    cases rest with
    | nil => rfl
    | cons c r => simpa using readDigits_cons_not_digit c r (hrest c r rfl)
  | cons c d ih =>
    rw [List.cons_append, readDigits_cons_digit c _ (hd c (by simp)),
      ih (fun x hx => hd x (by simp [hx]))]

theorem readDigits_decomp (cs : List Char) :
    cs = (readDigits cs).1 ++ (readDigits cs).2 ∧ (∀ c ∈ (readDigits cs).1, c.isDigit) ∧
      (∀ c r, (readDigits cs).2 = c :: r → c.isDigit = false) := by
  induction cs with
  | nil => exact ⟨rfl, fun c hc => absurd hc (List.not_mem_nil c), fun c r h => by cases h⟩
  | cons c cs ih =>
    by_cases hc : c.isDigit
    · rw [readDigits_cons_digit c cs hc]
      obtain ⟨h1, h2, h3⟩ := ih
      refine ⟨?_, ?_, h3⟩
      · rw [List.cons_append, ← h1]
      · intro d hd
        simp only [List.mem_cons] at hd
        rcases hd with rfl | hd
        · exact hc
        · exact h2 d hd
    · have hcf : c.isDigit = false := by
        cases hb : c.isDigit with
        | false => rfl
        | true => exact absurd hb hc
      rw [readDigits_cons_not_digit c cs hcf]
      refine ⟨rfl, by simp, ?_⟩
      intro d r h
      cases h
      exact hcf

end CopyPasteMove

namespace CopyPasteMove

theorem ws_not_digit (c : Char) (h : c.isWhitespace = true) : c.isDigit = false := by
  cases hd : c.isDigit with
  | false => rfl
  | true =>
    have hf := digit_not_ws c hd
    rw [h] at hf
    cases hf

theorem sep_not_digit (sep : Char) (hsep : sep = 'x' ∨ sep = 'X' ∨ sep = ',') :
    sep.isDigit = false := by
  rcases hsep with h | h | h <;> subst h <;> decide

theorem sep_not_ws (sep : Char) (hsep : sep = 'x' ∨ sep = 'X' ∨ sep = ',') :
    sep.isWhitespace = false := by
  rcases hsep with h | h | h <;> subst h <;> decide

theorem head_not_digit_ws_append (w rest : List Char) (hw : ∀ c ∈ w, c.isWhitespace)
    (hrest : ∀ c r, rest = c :: r → c.isDigit = false) :
    ∀ c r, w ++ rest = c :: r → c.isDigit = false := by
  intro c r h
  cases w with
  | nil => exact hrest c r (by simpa using h)
  | cons a w' =>
    simp only [List.cons_append] at h
    injection h with h1 h2
    rw [← h1]
    exact ws_not_digit a (hw a (by simp))

theorem skipWs_sign_digits (sgn : Bool) (d rest : List Char) (hdne : d ≠ [])
    (hdall : ∀ c ∈ d, c.isDigit) :
    skipWs ((if sgn then ['-'] else []) ++ (d ++ rest))
      = (if sgn then ['-'] else []) ++ (d ++ rest) := by
  cases sgn with
  | true =>
    simp only [if_pos]
    exact skipWs_cons_not_ws _ _ (by decide)
  | false =>
    simp only [Bool.false_eq_true, if_false, List.nil_append]
    cases d with
    | nil => exact absurd rfl hdne
    | cons c d' =>
      rw [List.cons_append]
      exact skipWs_cons_not_ws _ _ (digit_not_ws c (hdall c (by simp)))

theorem readInt_shape (sgn : Bool) (d rest : List Char) (hd : d ≠ [])
    (hdall : ∀ c ∈ d, c.isDigit)
    (hrest : ∀ c r, rest = c :: r → c.isDigit = false) :
    readInt ((if sgn then ['-'] else []) ++ (d ++ rest))
      = some (signVal sgn (digitsVal d), rest) := by
  cases sgn with
  | true =>
    simp only [if_pos, List.cons_append, List.nil_append]
    rw [readInt.eq_def]
    split
    · rename_i cs heq
      injection heq with h1 h2
      rw [← h2, readDigits_digits_append d rest hdall hrest]
      cases d with
      | nil => exact absurd rfl hd
      | cons c d' => simp [signVal]
    · rename_i hne
      exact ((hne (d ++ rest)) rfl).elim
  | false =>
    simp only [Bool.false_eq_true, if_false, List.nil_append]
    cases d with
    | nil => exact absurd rfl hd
    | cons c d' =>
      have hc : c.isDigit = true := hdall c (by simp)
      have hcne : ¬ c = '-' := by
        intro hcm
        rw [hcm] at hc
        exact absurd hc (by decide)
      rw [List.cons_append, readInt.eq_def]
      split
      · rename_i cs heq
        injection heq with h1 h2
        exact absurd h1 hcne
      · rw [← List.cons_append, readDigits_digits_append (c :: d') rest hdall hrest]
        simp [signVal]

theorem readInt_sound (cs : List Char) (v : Int) (r : List Char)
    (h : readInt cs = some (v, r)) :
    ∃ (sgn : Bool) (d : List Char), d ≠ [] ∧ (∀ c ∈ d, c.isDigit) ∧
      cs = (if sgn then ['-'] else []) ++ (d ++ r) ∧ v = signVal sgn (digitsVal d) ∧
      (∀ c r', r = c :: r' → c.isDigit = false) := by
  rw [readInt.eq_def] at h
  split at h
  · rename_i cs'
    obtain ⟨hdec, hdig, hhead⟩ := readDigits_decomp cs'
    rcases hrd : readDigits cs' with ⟨ds, rr⟩
    rw [hrd] at h hdec hdig hhead
    cases ds with
    | nil => simp at h
    | cons a ds' =>
      simp only at h hdec hdig hhead
      injection h with h1
      injection h1 with hv hr
      refine ⟨true, a :: ds', by simp, hdig, ?_, ?_, ?_⟩
      · rw [if_pos rfl, ← hr]
        simp only [List.cons_append, List.nil_append]
        rw [hdec]
        simp
      · rw [← hv]
        simp [signVal]
      · intro c r' hrc
        exact hhead c r' (by rw [← hr] at hrc; exact hrc)
  · rename_i hne
    obtain ⟨hdec, hdig, hhead⟩ := readDigits_decomp cs
    rcases hrd : readDigits cs with ⟨ds, rr⟩
    rw [hrd] at h hdec hdig hhead
    cases ds with
    | nil => simp at h
    | cons a ds' =>
      simp only at h hdec hdig hhead
      injection h with h1
      injection h1 with hv hr
      refine ⟨false, a :: ds', by simp, hdig, ?_, ?_, ?_⟩
      · rw [if_neg (by simp), List.nil_append, ← hr]
        exact hdec
      · rw [← hv]
        simp [signVal]
      · intro c r' hrc
        exact hhead c r' (by rw [← hr] at hrc; exact hrc)

end CopyPasteMove

namespace CopyPasteMove

theorem coordsMatch_complete (s : String) (x y : Int) (h : CoordShape s x y) :
    coordsMatch s = some (x, y) := by
  obtain ⟨w1, s1, d1, w2, sep, w3, s2, d2, w4, hs, hw1, hw2, hw3, hw4,
    hd1ne, hd1, hd2ne, hd2, hsep, hx, hy⟩ := h
  have hrest1 : ∀ c r,
      w2 ++ (sep :: (w3 ++ ((if s2 then ['-'] else []) ++ (d2 ++ w4)))) = c :: r →
      c.isDigit = false := by
    apply head_not_digit_ws_append w2 _ hw2
    intro c r hc
    injection hc with h1 h2
    rw [← h1]
    exact sep_not_digit sep hsep
  have hrest2 : ∀ c r, w4 = c :: r → c.isDigit = false := by
    intro c r hc
    have hm : c ∈ w4 := by rw [hc]; simp
    exact ws_not_digit c (hw4 c hm)
  have e1 : skipWs s.toList
      = (if s1 then ['-'] else []) ++ (d1 ++ (w2 ++ (sep ::
          (w3 ++ ((if s2 then ['-'] else []) ++ (d2 ++ w4)))))) := by
    rw [hs, skipWs_ws_append w1 _ hw1]
    exact skipWs_sign_digits s1 d1 _ hd1ne hd1
  have e2 : readInt (skipWs s.toList)
      = some (x, w2 ++ (sep :: (w3 ++ ((if s2 then ['-'] else []) ++ (d2 ++ w4))))) := by
    rw [e1, readInt_shape s1 d1 _ hd1ne hd1 hrest1, hx]
  have e3 : skipWs (w2 ++ (sep :: (w3 ++ ((if s2 then ['-'] else []) ++ (d2 ++ w4)))))
      = sep :: (w3 ++ ((if s2 then ['-'] else []) ++ (d2 ++ w4))) := by
    rw [skipWs_ws_append w2 _ hw2]
    exact skipWs_cons_not_ws _ _ (sep_not_ws sep hsep)
  have e4 : readInt (skipWs (w3 ++ ((if s2 then ['-'] else []) ++ (d2 ++ w4))))
      = some (y, w4) := by
    rw [skipWs_ws_append w3 _ hw3, skipWs_sign_digits s2 d2 _ hd2ne hd2,
      readInt_shape s2 d2 _ hd2ne hd2 hrest2, hy]
  have e5 : skipWs w4 = [] := skipWs_all_ws_nil w4 hw4
  have e2d : readInt (skipWs s.data)
      = some (x, w2 ++ (sep :: (w3 ++ ((if s2 then ['-'] else []) ++ (d2 ++ w4))))) := e2
  simp [coordsMatch, e2, e2d, e3, e4, e5, hsep]

theorem coordsMatch_sound (s : String) (x y : Int) (h : coordsMatch s = some (x, y)) :
    CoordShape s x y := by
  unfold coordsMatch at h
  split at h
  · cases h
  · rename_i x0 r1 heq1
    split at h
    · rename_i sep r2 heq2
      split at h
      · rename_i hsep
        split at h
        · cases h
        · rename_i y0 r3 heq3
          split at h
          · rename_i h5
            injection h with h1
            injection h1 with hxx hyy
            obtain ⟨w1, hw1d, hw1⟩ := skipWs_decomp s.toList
            obtain ⟨s1g, d1g, hd1ne, hd1, hcs1, hx0, _⟩ := readInt_sound _ x0 r1 heq1
            obtain ⟨w2, hw2d, hw2⟩ := skipWs_decomp r1
            obtain ⟨w3, hw3d, hw3⟩ := skipWs_decomp r2
            obtain ⟨s2g, d2g, hd2ne, hd2, hcs2, hy0, _⟩ := readInt_sound _ y0 r3 heq3
            have hw4 := skipWs_nil_all_ws r3 h5
            refine ⟨w1, s1g, d1g, w2, sep, w3, s2g, d2g, r3, ?_, hw1, hw2, hw3, hw4,
              hd1ne, hd1, hd2ne, hd2, hsep, ?_, ?_⟩
            · rw [hw1d, hcs1, hw2d, heq2, hw3d, hcs2]
            · rw [← hxx, hx0]
            · rw [← hyy, hy0]
          · cases h
      · cases h
    · cases h

/-- C4 (counterexample): the claim says every string of the form
`<int>x<int>` or `<int>,<int>` with optionally signed integers parses, and
every other string fails.  A plus-signed integer is rejected (`COORDS_RE`
only allows a minus sign), and surrounding whitespace — not part of the
claimed form — is accepted. -/
theorem C4_signed_coords_counterexample :
    parse_coords "+1x2" = .error "Bad coords: '+1x2'. Use 'XxY' or 'X,Y'" ∧
    parse_coords " 1x2 " = .ok (1, 2) :=
  ⟨rfl, rfl⟩

/-- C4 (amended): coordinate parsing returns `(x, y)` exactly for strings
of the shape: optional whitespace, an integer written as an optional minus
sign (a plus sign is not accepted) followed by ASCII digits, optional
whitespace, a separator `x`, `X` or `,`, optional whitespace, a second
such integer, optional trailing whitespace; every other string fails with
a FormatError. -/
theorem C4_coords_grammar (s : String) (x y : Int) :
    parse_coords s = .ok (x, y) ↔ CoordShape s x y := by
  constructor
  · intro h
    apply coordsMatch_sound
    unfold parse_coords at h
    rcases hm : coordsMatch s with _ | p
    · rw [hm] at h; cases h
    · rw [hm] at h
      injection h with h1
      rw [h1]
  · intro h
    unfold parse_coords
    rw [coordsMatch_complete s x y h]

theorem C4_coords_grammar_witness : CoordShape " -100X200 " (-100) 200 :=
  (C4_coords_grammar " -100X200 " (-100) 200).mp rfl

end CopyPasteMove
